import Mathlib

/-!
Verification of the ibitracker evidence-gated request router and lending merge engine.

This file gives a shallow embedding, in Lean 4, of the decision logic of
`router_service.py` (the evidence gate `gather_evidence`, the per-adapter
wrappers `get_nft_data` / `get_merkle_data` / `get_yield_data` /
`get_lending_data` / `get_tropykus_data`, and the orchestrator
`process_address`) and of `backend/lending_service.py` (the Footprint organic
rate extraction `_get_organic_apr`, the merge
`_merge_organic_and_incentivized_apr` with `_create_merged_entry` of
`LayerBankModule`, and the APR breakdown construction of
`TropykusModule.get_apr_data`), together with proofs about that embedding.

Modelling conventions:
- Python floats are modelled as rationals.
- Python runtime exceptions are modelled with `Except Unit`; external calls
  (HTTP, subprocess, web3) are modelled as oracle parameters carrying the
  outcome the call would produce.
- Untyped JSON-ish Python values (the token-balance dictionaries inspected by
  the evidence gate, and opaque adapter payloads) are modelled by `JVal`;
  `dict.get`, truthiness, `str.lower`, and `float(...)` conversions are
  modelled by the `py*` helpers below, including the `AttributeError` and
  `TypeError` cases the source code can hit on malformed input.
- Python `str.lower()` is modelled for the basic-latin alphabet, which covers
  every string the code compares (hex addresses, symbols, dict keys).
-/

/-! ## Python string primitives -/

/-- Model of Python `str.lower()` on basic-latin strings: lower-case each
character. -/
def pyLower (s : String) : String := String.mk (s.data.map Char.toLower)

/-- Model of Python `s.startswith(p)`. -/
def pyStartsWith (s p : String) : Bool := p.data.isPrefixOf s.data

/-- Contiguous-sublist test used to model Python's `pat in s` on strings. -/
def occursIn (pat : List Char) : List Char → Bool
  | [] => pat.isEmpty
  | c :: t => pat.isPrefixOf (c :: t) || occursIn pat t

/-- Model of Python `pat in s` for strings. -/
def strIn (pat s : String) : Bool := occursIn pat.data s.data

theorem charToNat_ofNat (n : ℕ) (h : n.isValidChar) : (Char.ofNat n).toNat = n := by
  rw [Char.ofNat, dif_pos h]
  simp [Char.ofNatAux, Char.toNat, UInt32.toNat, BitVec.toNat_ofNatLt]

theorem charLower_def (c : Char) :
    Char.toLower c = if c.toNat ≥ 65 ∧ c.toNat ≤ 90 then Char.ofNat (c.toNat + 32) else c := rfl

theorem charLower_idem (c : Char) : (c.toLower).toLower = c.toLower := by
  by_cases h : c.toNat ≥ 65 ∧ c.toNat ≤ 90
  · have hv : (c.toNat + 32).isValidChar := Or.inl (by omega)
    rw [charLower_def c, if_pos h, charLower_def, charToNat_ofNat _ hv, if_neg (by omega)]
  · rw [charLower_def c, if_neg h, charLower_def c, if_neg h]

theorem pyLower_idem (s : String) : pyLower (pyLower s) = pyLower s := by
  simp [pyLower, List.map_map, Function.comp_def, charLower_idem]

theorem pyLower_eq_empty_iff (s : String) : pyLower s = "" ↔ s = "" := by
  cases s with
  | mk data =>
    constructor
    · intro h
      have hd : data.map Char.toLower = [] := congrArg String.data h
      have : data = [] := List.map_eq_nil_iff.mp hd
      simp [this]
    · intro h
      have hd : data = [] := by
        have h2 := congrArg String.data h
        simpa using h2
      subst hd
      rfl

/-! ## Untyped Python values -/

/-- A JSON-like universe for the dynamically-typed Python values the router
inspects (token-balance dictionaries and opaque adapter payloads). -/
inductive JVal where
  | str (s : String)
  | num (q : ℚ)
  | bool (b : Bool)
  | null
  | list (xs : List JVal)
  | obj (kvs : List (String × JVal))

/-- Python `d.get(key, default)`: succeeds on a dict (first binding of the
key, or the default when the key is absent); raises `AttributeError` on any
non-dict value. A stored `None` is returned as `JVal.null`, not the default. -/
def pyGetD (v : JVal) (k : String) (d : JVal) : Except Unit JVal :=
  match v with
  | JVal.obj kvs => Except.ok ((List.lookup k kvs).getD d)
  | _ => Except.error ()

/-- Python `v == s` for a string literal `s`: true only for an equal string. -/
def jvalEqStr (v : JVal) (s : String) : Bool :=
  match v with
  | JVal.str t => t == s
  | _ => false

/-- Python truthiness of a value. -/
def pyTruthy (v : JVal) : Bool :=
  match v with
  | JVal.str s => !(s == "")
  | JVal.num q => !(q == 0)
  | JVal.bool b => b
  | JVal.null => false
  | JVal.list xs => !xs.isEmpty
  | JVal.obj kvs => !kvs.isEmpty

/-- Python `v or default` for a string default. -/
def pyOrStr (v : JVal) (d : String) : JVal :=
  if pyTruthy v then v else JVal.str d

/-- Python `.lower()` on a dynamically-typed value: only strings have it,
anything else raises `AttributeError`. -/
def pyLowerVal (v : JVal) : Except Unit String :=
  match v with
  | JVal.str s => Except.ok (pyLower s)
  | _ => Except.error ()

/-- Digits-only accumulator for decimal parsing. -/
def decDigits (cs : List Char) : Option ℕ :=
  cs.foldl
    (fun acc c =>
      match acc with
      | none => none
      | some n => if c.isDigit then some (n * 10 + (c.toNat - 48)) else none)
    (some 0)

/-- Unsigned decimal literal: digits, optionally followed by a dot and more
digits, with at least one digit overall. -/
def parseUnsignedDec (cs : List Char) : Option ℚ :=
  let intPart := cs.takeWhile Char.isDigit
  let rest := cs.dropWhile Char.isDigit
  match rest with
  | [] =>
    if intPart.isEmpty then none
    else (decDigits intPart).map (fun n => mkRat n 1)
  | '.' :: frac =>
    if frac.all Char.isDigit && !(intPart.isEmpty && frac.isEmpty) then
      match decDigits intPart, decDigits frac with
      | some ip, some fp => some (mkRat (ip * 10 ^ frac.length + fp) (10 ^ frac.length))
      | _, _ => none
    else none
  | _ => none

/-- Model of CPython `float(s)` on plain decimal literals with an optional
sign. Exponent forms, infinities, NaN, underscores and surrounding whitespace
are outside the model; on them, as on any other malformed string, the model
returns `none` (the code catches the corresponding `ValueError`). -/
def pyParseFloat (s : String) : Option ℚ :=
  match s.data with
  | '+' :: rest => parseUnsignedDec rest
  | '-' :: rest => (parseUnsignedDec rest).map Neg.neg
  | cs => parseUnsignedDec cs

/-- Model of CPython `float(v)` on an arbitrary value: numbers and booleans
convert, strings parse, everything else raises `TypeError` (modelled `none`,
since every caller catches it). -/
def pyFloatOfVal (v : JVal) : Option ℚ :=
  match v with
  | JVal.num q => some q
  | JVal.bool b => some (if b then 1 else 0)
  | JVal.str s => pyParseFloat s
  | _ => none

/-! ## Evidence gate (router_service.RouterService) -/

/-- The evidence flags computed by `RouterService.gather_evidence`. -/
structure Evidence where
  has_yield_token : Bool
  has_lending : Bool
  has_nfts : Bool
  has_merkle_rewards : Bool
deriving DecidableEq

/-- The all-true fallback returned by `gather_evidence` when its body raises. -/
def allTrueEvidence : Evidence :=
  { has_yield_token := true, has_lending := true, has_nfts := true, has_merkle_rewards := true }

/-- `RouterService._is_positive(value)`: `float(value) > 0`, with
`ValueError` and `TypeError` caught and turned into `False`. -/
def isPositive (v : JVal) : Bool :=
  match pyFloatOfVal v with
  | some q => decide (0 < q)
  | none => false

/-- The symbol prefix tuple of `RouterService._looks_like_lending_receipt`. -/
def lendingPatterns : List String := ["k", "c", "a", "l", "variable"]

/-- The name-keyword disjunction of `RouterService._looks_like_lending_receipt`
(`"ktoken" in name or ... or "debt" in name`). -/
def keywordHit (name : String) : Bool :=
  strIn "ktoken" name || strIn "ltoken" name || strIn "atoken" name ||
    strIn "layerbank" name || strIn "avalon" name || strIn "tropykus" name ||
    strIn "variable" name || strIn "debt" name

/-- `RouterService._looks_like_lending_receipt(balance)`. Mirrors the source
order of operations: fetch `token`, check its `type`, lower-case symbol and
name (each step can raise on a malformed balance), then combine the value and
pattern checks. -/
def looksLikeLendingReceipt (balance : JVal) : Except Unit Bool :=
  match pyGetD balance "token" (JVal.obj []) with
  | Except.error e => Except.error e
  | Except.ok token =>
    match pyGetD token "type" JVal.null with
    | Except.error e => Except.error e
    | Except.ok tyv =>
      if !jvalEqStr tyv "ERC-20" then Except.ok false
      else
        match pyGetD token "symbol" JVal.null with
        | Except.error e => Except.error e
        | Except.ok symv =>
          match pyLowerVal (pyOrStr symv "") with
          | Except.error e => Except.error e
          | Except.ok sym =>
            match pyGetD token "name" JVal.null with
            | Except.error e => Except.error e
            | Except.ok namev =>
              match pyLowerVal (pyOrStr namev "") with
              | Except.error e => Except.error e
              | Except.ok name =>
                match pyGetD balance "value" (JVal.num 0) with
                | Except.error e => Except.error e
                | Except.ok value =>
                  Except.ok (isPositive value &&
                    (lendingPatterns.any (fun p => pyStartsWith sym p) || keywordHit name))

/-- One iteration of the yield-token loop in `gather_evidence`:
`"midas" in balance.get("token", {}).get("name", "").lower()`. -/
def yieldTokenCheck (balance : JVal) : Except Unit Bool :=
  match pyGetD balance "token" (JVal.obj []) with
  | Except.error e => Except.error e
  | Except.ok token =>
    match pyGetD token "name" (JVal.str "") with
    | Except.error e => Except.error e
    | Except.ok namev =>
      match pyLowerVal namev with
      | Except.error e => Except.error e
      | Except.ok tname => Except.ok (["midas"].any (fun kw => strIn kw tname))

/-- One iteration of the NFT loop in `gather_evidence`:
`balance.get("token", {}).get("type") == "ERC-721"`. -/
def nftCheck (balance : JVal) : Except Unit Bool :=
  match pyGetD balance "token" (JVal.obj []) with
  | Except.error e => Except.error e
  | Except.ok token =>
    match pyGetD token "type" JVal.null with
    | Except.error e => Except.error e
    | Except.ok tyv => Except.ok (jvalEqStr tyv "ERC-721")

/-- A `for ... if cond: flag = True; break` scan over the balance list, with
any raised exception propagating. -/
def loopAny (f : JVal → Except Unit Bool) : List JVal → Except Unit Bool
  | [] => Except.ok false
  | b :: rest =>
    match f b with
    | Except.error e => Except.error e
    | Except.ok true => Except.ok true
    | Except.ok false => loopAny f rest

/-- The body of the outer `try` of `gather_evidence`: the three balance scans
in source order, then the Merkle probe. The probe performs network I/O, so
its outcome is an oracle parameter: `Except.ok b` means the probe's inner
`try` body ran and decided the flag to be `b`, `Except.error _` means it
raised; either way the inner `except` keeps the flag false on a raise. -/
def gatherEvidenceBody (address : String) (balances : List JVal)
    (probe : Except Unit Bool) : Except Unit Evidence :=
  match loopAny yieldTokenCheck balances with
  | Except.error e => Except.error e
  | Except.ok hy =>
    match loopAny looksLikeLendingReceipt balances with
    | Except.error e => Except.error e
    | Except.ok hl =>
      match loopAny nftCheck balances with
      | Except.error e => Except.error e
      | Except.ok hn =>
        Except.ok
          { has_yield_token := hy
            has_lending := hl
            has_nfts := hn
            has_merkle_rewards :=
              match probe with
              | Except.ok b => b
              | Except.error _ => false }

/-- `RouterService.gather_evidence`: run the body; if it raises at the top
level, return all flags true. -/
def gather_evidence (address : String) (balances : List JVal)
    (probe : Except Unit Bool) : Evidence :=
  match gatherEvidenceBody address balances probe with
  | Except.ok e => e
  | Except.error _ => allTrueEvidence

/-! ## Router orchestrator (router_service.RouterService.process_address)

The four lazily-constructed services have constructors that only assign
constant fields (`NFTService.__init__`, `MerkleRewardsService.__init__`,
`YieldTokenService.__init__`, `LendingService.__init__`), so on a fresh
router instance `initialize_services` makes a service available exactly when
its evidence flag is true. Each adapter call performs network or subprocess
I/O, so its outcome is an oracle parameter. -/

/-- The documented empty-result shape of `get_merkle_data`. -/
def emptyMerkleSummary : JVal :=
  JVal.obj [("rewards", JVal.list []), ("total_rewards", JVal.num 0),
    ("total_usd_value", JVal.num 0)]

/-- The documented empty-result shape of `get_yield_data`. -/
def emptyYieldTokens : JVal :=
  JVal.obj [("yield_tokens", JVal.list []), ("total_yield_tokens", JVal.num 0)]

/-- The documented empty-result shape of `get_lending_data` (LayerBank side). -/
def emptyLayerBankLending : JVal :=
  JVal.obj [("campaign_breakdowns", JVal.obj [])]

/-- The documented empty-result shape of `get_tropykus_data`. -/
def emptyTropykusPortfolio : JVal :=
  JVal.obj [("protocol", JVal.str "Tropykus"), ("portfolio_items", JVal.list []),
    ("total_items", JVal.num 0)]

/-- `get_lending_data`'s post-processing: if the returned dict lacks a
`campaign_breakdowns` key, add an empty one. -/
def ensureCampaignBreakdowns (v : JVal) : JVal :=
  match v with
  | JVal.obj kvs =>
    if (List.lookup "campaign_breakdowns" kvs).isSome then JVal.obj kvs
    else JVal.obj (kvs ++ [("campaign_breakdowns", JVal.obj [])])
  | _ => v

/-- `RouterService.get_nft_data`: empty list when the service is missing or
the call raises. -/
def get_nft_data (available : Bool) (call : Except Unit JVal) : JVal :=
  if available then
    match call with
    | Except.ok v => v
    | Except.error _ => JVal.list []
  else JVal.list []

/-- `RouterService.get_merkle_data`. -/
def get_merkle_data (available : Bool) (call : Except Unit JVal) : JVal :=
  if available then
    match call with
    | Except.ok v => v
    | Except.error _ => emptyMerkleSummary
  else emptyMerkleSummary

/-- `RouterService.get_yield_data`. -/
def get_yield_data (available : Bool) (call : Except Unit JVal) : JVal :=
  if available then
    match call with
    | Except.ok v => v
    | Except.error _ => emptyYieldTokens
  else emptyYieldTokens

/-- `RouterService.get_lending_data`. -/
def get_lending_data (available : Bool) (call : Except Unit JVal) : JVal :=
  if available then
    match call with
    | Except.ok v => ensureCampaignBreakdowns v
    | Except.error _ => emptyLayerBankLending
  else emptyLayerBankLending

/-- `RouterService.get_tropykus_data`. -/
def get_tropykus_data (available : Bool) (call : Except Unit JVal) : JVal :=
  if available then
    match call with
    | Except.ok v => v
    | Except.error _ => emptyTropykusPortfolio
  else emptyTropykusPortfolio

/-- Outcomes of the five adapter calls `process_address` can make. -/
structure AdapterCalls where
  nft : Except Unit JVal
  merkle : Except Unit JVal
  yieldTok : Except Unit JVal
  lending : Except Unit JVal
  tropykus : Except Unit JVal

/-- The aggregate result assembled by `process_address`. -/
structure ProcessResult where
  address : String
  evidence : Evidence
  nft_valuations : JVal
  merkle_rewards : JVal
  yield_tokens : JVal
  lending_layerbank : JVal
  lending_tropykus : JVal

/-- The body of the `try` in `process_address`: gather evidence, initialize
the needed services, run the gated adapters, assemble the aggregate. Fields
not gated in keep their initialized zero-value defaults. -/
def processAddressBody (address : String) (balances : List JVal)
    (probe : Except Unit Bool) (calls : AdapterCalls) : ProcessResult :=
  let ev := gather_evidence address balances probe
  { address := address
    evidence := ev
    nft_valuations :=
      if ev.has_nfts then get_nft_data ev.has_nfts calls.nft else JVal.list []
    merkle_rewards :=
      if ev.has_merkle_rewards then get_merkle_data ev.has_merkle_rewards calls.merkle
      else emptyMerkleSummary
    yield_tokens :=
      if ev.has_yield_token then get_yield_data ev.has_yield_token calls.yieldTok
      else emptyYieldTokens
    lending_layerbank :=
      if ev.has_lending then get_lending_data ev.has_lending calls.lending
      else emptyLayerBankLending
    lending_tropykus :=
      if ev.has_lending then get_tropykus_data ev.has_lending calls.tropykus
      else emptyTropykusPortfolio }

/-- The fallback aggregate returned by the top-level `except` of
`process_address`: all-empty payloads and, notably, all-false evidence. -/
def fallbackAggregate (address : String) : ProcessResult :=
  { address := address
    evidence :=
      { has_yield_token := false, has_lending := false, has_nfts := false,
        has_merkle_rewards := false }
    nft_valuations := JVal.list []
    merkle_rewards := emptyMerkleSummary
    yield_tokens := emptyYieldTokens
    lending_layerbank := emptyLayerBankLending
    lending_tropykus := emptyTropykusPortfolio }

/-- `RouterService.process_address`: the whole body runs inside a `try`; the
`body` parameter is the outcome of that body (`processAddressBody` when no
unexpected runtime failure occurs, `Except.error` when an exception escapes
to the top level). On an error the fallback aggregate is returned; nothing
ever propagates to the caller. -/
def process_address (address : String) (body : Except Unit ProcessResult) : ProcessResult :=
  match body with
  | Except.ok r => r
  | Except.error _ => fallbackAggregate address

/-! ## LayerBank lending merge (backend/lending_service.LayerBankModule) -/

/-- One record of the organic breakdown built by
`LayerBankModule._get_organic_apr` from a Footprint row. -/
structure OrganicRow where
  reserve : String
  liquidity_rate : ℚ
  variable_borrow_rate : ℚ
  organic_apr : ℚ
  latest_update : String
deriving DecidableEq

/-- The value returned by `_get_organic_apr`. -/
structure OrganicData where
  total_organic_apr : ℚ
  breakdown : List OrganicRow
deriving DecidableEq

/-- One record of the incentivized breakdown built by
`LayerBankModule._get_incentivized_apr` from a Merkle opportunity. The
`explorer_address` is stored lower-cased at creation (line 579 of the
source); `reserve_address` is stored as received. -/
structure IncRow where
  campaign_id : String
  status : String
  action : String
  apr : ℚ
  explorer_address : String
  price : ℚ
  reserve_address : String
deriving DecidableEq

/-- The value returned by `_get_incentivized_apr`: a dict with exactly the
keys `total_apr` and `breakdown`. -/
structure IncentivizedData where
  total_apr : ℚ
  breakdown : List IncRow
deriving DecidableEq

/-- One merged APR entry as built by `LayerBankModule._create_merged_entry`. -/
structure MergedEntry where
  reserve_address : String
  action : String
  organic_apr : ℚ
  incentivized_apr : ℚ
  total_apr : ℚ
  liquidity_rate : ℚ
  variable_borrow_rate : ℚ
  latest_update : String
  campaign_id : String
  status : String
  explorer_address : String
  price : ℚ
deriving DecidableEq

/-- The Merkle campaign id every merged entry is grouped under: the first
supplied campaign id, or the empty string (the source's acknowledged
first-campaign-id fallback). -/
def keyOf (cids : List String) : String :=
  match cids with
  | [] => ""
  | c :: _ => c

/-- `LayerBankModule._create_merged_entry` (the entry construction; the
grouping into `campaign_breakdowns` is `insertEntry` below). `explorerArg`
models the optional `explorer_address` argument, with the empty string for
Python `None` — the source combines them with `or`, which treats both alike. -/
def createMergedEntry (org : OrganicRow) (inc : Option IncRow) (action : String)
    (cids : List String) (explorerArg : String) : MergedEntry :=
  let organicApr : ℚ :=
    if action = "LEND" then org.liquidity_rate * 100
    else if action = "BORROW" then -(org.variable_borrow_rate * 100)
    else org.liquidity_rate * 100
  let incentivizedApr : ℚ :=
    match inc with
    | some i => i.apr
    | none => 0
  { reserve_address := pyLower org.reserve
    action := action
    organic_apr := organicApr
    incentivized_apr := incentivizedApr
    total_apr := organicApr + incentivizedApr
    liquidity_rate := org.liquidity_rate
    variable_borrow_rate := org.variable_borrow_rate
    latest_update := org.latest_update
    campaign_id := keyOf cids
    status :=
      match inc with
      | some i => i.status
      | none => ""
    explorer_address :=
      if explorerArg = "" then
        match inc with
        | some i => pyLower i.explorer_address
        | none => pyLower org.reserve
      else explorerArg
    price :=
      match inc with
      | some i => i.price
      | none => 0 }

/-- The organic-only explorer scan of `_merge_organic_and_incentivized_apr`
(lines 740-747): it iterates `incentivized_data.items()`, i.e. the pairs
`total_apr` / `breakdown` of the incentive dict, comparing each KEY to the
reserve address. Matching the `total_apr` key makes the loop iterate over a
float and raise `TypeError`; matching the `breakdown` key scans the
incentive rows for the first truthy `explorer_address`; any other reserve
address leaves the explorer address empty. -/
def organicOnlyExplorer (inc : IncentivizedData) (reserveAddr : String) : Except Unit String :=
  if pyLower "total_apr" = pyLower reserveAddr then Except.error ()
  else if pyLower "breakdown" = pyLower reserveAddr then
    Except.ok
      (match inc.breakdown.find? (fun c => !(c.explorer_address == "")) with
      | some c => pyLower c.explorer_address
      | none => "")
  else Except.ok ""

/-- Appending a merged entry under its campaign-id key, as
`campaign_breakdowns[merkle_campaign_id].append(merged_entry)` does on the
insertion-ordered Python dict. -/
def insertEntry (bds : List (String × List MergedEntry)) (k : String) (e : MergedEntry) :
    List (String × List MergedEntry) :=
  match bds with
  | [] => [(k, [e])]
  | (k2, es) :: rest =>
    if k2 = k then (k2, es ++ [e]) :: rest else (k2, es) :: insertEntry rest k e

/-- One iteration of the organic loop of `_merge_organic_and_incentivized_apr`:
skip empty reserves; with no matching incentive rows run the explorer scan
and emit a LEND and a BORROW entry; otherwise emit one entry per matching
incentive row, with that row's action. -/
def processOrganicRow (inc : IncentivizedData) (cids : List String)
    (bds : List (String × List MergedEntry)) (org : OrganicRow) :
    Except Unit (List (String × List MergedEntry)) :=
  let reserveAddr := pyLower org.reserve
  if reserveAddr = "" then Except.ok bds
  else
    let matched := inc.breakdown.filter (fun i => pyLower i.reserve_address == reserveAddr)
    if matched.isEmpty then
      match organicOnlyExplorer inc reserveAddr with
      | Except.error e => Except.error e
      | Except.ok ex =>
        let e1 := createMergedEntry org none "LEND" cids ex
        let e2 := createMergedEntry org none "BORROW" cids ex
        Except.ok (insertEntry (insertEntry bds e1.campaign_id e1) e2.campaign_id e2)
    else
      Except.ok
        (matched.foldl
          (fun b i =>
            let e := createMergedEntry org (some i) i.action cids ""
            insertEntry b e.campaign_id e)
          bds)

/-- The organic loop of `_merge_organic_and_incentivized_apr`, with the first
raised exception propagating to the surrounding `except`. -/
def mergeRows (inc : IncentivizedData) (cids : List String) :
    List OrganicRow → List (String × List MergedEntry) →
      Except Unit (List (String × List MergedEntry))
  | [], bds => Except.ok bds
  | org :: rest, bds =>
    match processOrganicRow inc cids bds org with
    | Except.error e => Except.error e
    | Except.ok bds2 => mergeRows inc cids rest bds2

/-- `LayerBankModule._merge_organic_and_incentivized_apr`: run the organic
loop over the organic breakdown; if anything raises, the `except` discards
everything built so far and returns empty campaign breakdowns. -/
def mergeOrganicAndIncentivizedApr (organic : OrganicData) (inc : IncentivizedData)
    (cids : List String) : List (String × List MergedEntry) :=
  match mergeRows inc cids organic.breakdown [] with
  | Except.ok bds => bds
  | Except.error _ => []

/-- All merged entries of a campaign-breakdown map, in insertion order. -/
def entriesOf (bds : List (String × List MergedEntry)) : List MergedEntry :=
  bds.foldr (fun p acc => p.2 ++ acc) []

/-- The merged positions produced by one call of the LayerBank merge. -/
def mergedEntries (organic : OrganicData) (inc : IncentivizedData)
    (cids : List String) : List MergedEntry :=
  entriesOf (mergeOrganicAndIncentivizedApr organic inc cids)

/-! ## Footprint organic rate extraction and Tropykus breakdowns -/

/-- A parsed Footprint Analytics row, in column order
latest_update / reserve / liquidityrate / variableborrowrate. Rows with
fewer than four cells, or with cells `float(...)` rejects, are skipped by
the per-row `except` in `_get_organic_apr` and are outside the model input;
`none` models a SQL NULL cell, which the source defaults to `0.0`. -/
structure FootRow where
  latest_update : String
  reserve : String
  liquidity_rate : Option ℚ
  variable_borrow_rate : Option ℚ
deriving DecidableEq

/-- The breakdown record `_get_organic_apr` builds from one kept row. -/
def footRowOrganic (row : FootRow) : OrganicRow :=
  { reserve := row.reserve
    liquidity_rate := row.liquidity_rate.getD 0
    variable_borrow_rate := row.variable_borrow_rate.getD 0
    organic_apr := row.liquidity_rate.getD 0 * 100
    latest_update := row.latest_update }

/-- `LayerBankModule._get_organic_apr` (row processing): keep a row only when
its liquidity rate times 100 is strictly positive, accumulating the total. -/
def getOrganicApr (rows : List FootRow) : OrganicData :=
  { total_organic_apr :=
      (rows.filter (fun row => decide (0 < row.liquidity_rate.getD 0 * 100))).foldl
        (fun acc row => acc + row.liquidity_rate.getD 0 * 100) 0
    breakdown :=
      (rows.filter (fun row => decide (0 < row.liquidity_rate.getD 0 * 100))).map
        footRowOrganic }

/-- One Tropykus market as consumed by `TropykusModule.get_apr_data`: the
`name`, `contract_address`, `supply_rate` and `borrow_rate` fields of a
`findManyMarkets` record, with the rate strings already converted by
`float(...)` (a conversion failure aborts the whole call into its error
shape, producing no entries). -/
structure TropMarket where
  name : String
  contract_address : String
  supply_rate : ℚ
  borrow_rate : ℚ
deriving DecidableEq

/-- One entry of the Tropykus `apr_breakdowns` dict. -/
structure TropEntry where
  reserve_address : String
  action : String
  organic_apr : ℚ
  incentivized_apr : ℚ
  total_apr : ℚ
  supply_rate : ℚ
  borrow_rate : ℚ
  market_name : String
  contract_address : String
deriving DecidableEq

/-- The LEND entry `TropykusModule.get_apr_data` builds for a market. -/
def tropykusLendEntry (m : TropMarket) : TropEntry :=
  { reserve_address := pyLower m.contract_address
    action := "LEND"
    organic_apr := m.supply_rate
    incentivized_apr := 0
    total_apr := m.supply_rate
    supply_rate := m.supply_rate
    borrow_rate := m.borrow_rate
    market_name := m.name
    contract_address := pyLower m.contract_address }

/-- The BORROW entry `TropykusModule.get_apr_data` builds for a market:
the borrow rate is stored negated, as a cost to the user. -/
def tropykusBorrowEntry (m : TropMarket) : TropEntry :=
  { reserve_address := pyLower m.contract_address
    action := "BORROW"
    organic_apr := -m.borrow_rate
    incentivized_apr := 0
    total_apr := -m.borrow_rate
    supply_rate := m.supply_rate
    borrow_rate := m.borrow_rate
    market_name := m.name
    contract_address := pyLower m.contract_address }

/-- Python dict assignment `d[k] = v` on an insertion-ordered dict: replace
in place when the key exists, append otherwise. -/
def dictInsert {α : Type} (d : List (String × α)) (k : String) (v : α) :
    List (String × α) :=
  if d.any (fun p => p.1 == k) then
    d.map (fun p => if p.1 == k then (p.1, v) else p)
  else d ++ [(k, v)]

/-- The market filter of `TropykusModule.get_apr_data`: `active_markets` is
`None` when no user address was supplied and the list of the user's active
market names otherwise; a `None` or empty list (both falsy) keeps all
markets. -/
def tropykusFilterMarkets (allMarkets : List TropMarket)
    (active : Option (List String)) : List TropMarket :=
  match active with
  | some names =>
    if names.isEmpty then allMarkets
    else allMarkets.filter (fun m => names.contains m.name)
  | none => allMarkets

/-- The `apr_breakdowns` dict built by `TropykusModule.get_apr_data`: for
each market, in order, assign the name_LEND and name_BORROW keys. -/
def tropykusAprBreakdowns (markets : List TropMarket) : List (String × TropEntry) :=
  markets.foldl
    (fun d m =>
      dictInsert (dictInsert d (m.name ++ "_LEND") (tropykusLendEntry m))
        (m.name ++ "_BORROW") (tropykusBorrowEntry m))
    []

/-! ## Merge characterization lemmas

`mergeRows` threads an insertion-ordered map through the organic loop, but
every insertion uses the same key `keyOf cids`, so the map is always empty
or a single bucket. The helpers below make that explicit and characterize
the produced entry list row by row. -/

/-- The entries one organic row contributes, by branch. -/
def rowEntries (inc : IncentivizedData) (cids : List String) (org : OrganicRow) :
    Except Unit (List MergedEntry) :=
  let reserveAddr := pyLower org.reserve
  if reserveAddr = "" then Except.ok []
  else
    let matched := inc.breakdown.filter (fun i => pyLower i.reserve_address == reserveAddr)
    if matched.isEmpty then
      match organicOnlyExplorer inc reserveAddr with
      | Except.error e => Except.error e
      | Except.ok ex =>
        Except.ok
          [createMergedEntry org none "LEND" cids ex,
            createMergedEntry org none "BORROW" cids ex]
    else
      Except.ok (matched.map (fun i => createMergedEntry org (some i) i.action cids ""))

/-- The concatenated entries of a list of organic rows. -/
def rowsEntries (inc : IncentivizedData) (cids : List String) :
    List OrganicRow → Except Unit (List MergedEntry)
  | [] => Except.ok []
  | org :: rest =>
    match rowEntries inc cids org with
    | Except.error e => Except.error e
    | Except.ok es =>
      match rowsEntries inc cids rest with
      | Except.error e => Except.error e
      | Except.ok rest2 => Except.ok (es ++ rest2)

/-- A single-bucket campaign-breakdown map (empty when it has no entries). -/
def packKey (k : String) (es : List MergedEntry) : List (String × List MergedEntry) :=
  match es with
  | [] => []
  | _ :: _ => [(k, es)]

theorem createMergedEntry_campaign_id (org : OrganicRow) (inc : Option IncRow)
    (action : String) (cids : List String) (ex : String) :
    (createMergedEntry org inc action cids ex).campaign_id = keyOf cids := rfl

theorem insertEntry_packKey (k : String) (es : List MergedEntry) (e : MergedEntry) :
    insertEntry (packKey k es) k e = packKey k (es ++ [e]) := by
  cases es <;> simp [packKey, insertEntry]

theorem foldl_insertEntry_packKey (k : String) (g : IncRow → MergedEntry)
    (hg : ∀ i, (g i).campaign_id = k) :
    ∀ (l : List IncRow) (es : List MergedEntry),
      l.foldl (fun b i => insertEntry b (g i).campaign_id (g i)) (packKey k es) =
        packKey k (es ++ l.map g) := by
  intro l
  induction l with
  | nil => intro es; simp
  | cons i rest ih =>
    intro es
    have h1 : insertEntry (packKey k es) (g i).campaign_id (g i) = packKey k (es ++ [g i]) := by
      rw [hg i, insertEntry_packKey]
    simp only [List.foldl_cons, h1, ih (es ++ [g i])]
    simp

theorem processOrganicRow_packKey (inc : IncentivizedData) (cids : List String)
    (es : List MergedEntry) (org : OrganicRow) :
    processOrganicRow inc cids (packKey (keyOf cids) es) org =
      match rowEntries inc cids org with
      | Except.error e => Except.error e
      | Except.ok new => Except.ok (packKey (keyOf cids) (es ++ new)) := by
  unfold processOrganicRow rowEntries
  by_cases h0 : pyLower org.reserve = ""
  · simp [h0]
  · simp only [h0, if_false]
    by_cases hm :
        (inc.breakdown.filter (fun i => pyLower i.reserve_address == pyLower org.reserve)).isEmpty
    · simp only [hm, if_true]
      cases hx : organicOnlyExplorer inc (pyLower org.reserve) with
      | error e => simp
      | ok ex =>
        simp only []
        rw [createMergedEntry_campaign_id, createMergedEntry_campaign_id,
          insertEntry_packKey, insertEntry_packKey]
        simp
    · simp only [hm, Bool.false_eq_true, if_false]
      rw [foldl_insertEntry_packKey (keyOf cids)
        (fun i => createMergedEntry org (some i) i.action cids "")
        (fun i => createMergedEntry_campaign_id ..)]

theorem mergeRows_packKey (inc : IncentivizedData) (cids : List String) :
    ∀ (rows : List OrganicRow) (es : List MergedEntry),
      mergeRows inc cids rows (packKey (keyOf cids) es) =
        match rowsEntries inc cids rows with
        | Except.error e => Except.error e
        | Except.ok ls => Except.ok (packKey (keyOf cids) (es ++ ls)) := by
  intro rows
  induction rows with
  | nil => intro es; simp [mergeRows, rowsEntries]
  | cons org rest ih =>
    intro es
    show
      (match processOrganicRow inc cids (packKey (keyOf cids) es) org with
        | Except.error e => Except.error e
        | Except.ok bds2 => mergeRows inc cids rest bds2) = _
    rw [processOrganicRow_packKey]
    cases hr : rowEntries inc cids org with
    | error e => simp [rowsEntries, hr]
    | ok new =>
      simp only []
      rw [ih (es ++ new)]
      cases hrs : rowsEntries inc cids rest with
      | error e => simp [rowsEntries, hr, hrs]
      | ok ls => simp [rowsEntries, hr, hrs]

theorem mergeOrganicAndIncentivizedApr_eq (organic : OrganicData)
    (inc : IncentivizedData) (cids : List String) :
    mergeOrganicAndIncentivizedApr organic inc cids =
      match rowsEntries inc cids organic.breakdown with
      | Except.error _ => []
      | Except.ok ls => packKey (keyOf cids) ls := by
  unfold mergeOrganicAndIncentivizedApr
  have h0 : ([] : List (String × List MergedEntry)) = packKey (keyOf cids) [] := rfl
  rw [h0, mergeRows_packKey]
  cases rowsEntries inc cids organic.breakdown <;> simp

theorem entriesOf_packKey (k : String) (es : List MergedEntry) :
    entriesOf (packKey k es) = es := by
  cases es <;> simp [entriesOf, packKey]

theorem mergedEntries_eq (organic : OrganicData) (inc : IncentivizedData)
    (cids : List String) :
    mergedEntries organic inc cids =
      match rowsEntries inc cids organic.breakdown with
      | Except.error _ => []
      | Except.ok ls => ls := by
  unfold mergedEntries
  rw [mergeOrganicAndIncentivizedApr_eq]
  cases rowsEntries inc cids organic.breakdown with
  | error e => simp [entriesOf]
  | ok ls => simp [entriesOf_packKey]

/-! ## Entry-level lemmas -/

theorem createMergedEntry_total (org : OrganicRow) (inc : Option IncRow)
    (action : String) (cids : List String) (ex : String) :
    (createMergedEntry org inc action cids ex).total_apr =
      (createMergedEntry org inc action cids ex).organic_apr +
        (createMergedEntry org inc action cids ex).incentivized_apr := rfl

theorem createMergedEntry_action (org : OrganicRow) (inc : Option IncRow)
    (action : String) (cids : List String) (ex : String) :
    (createMergedEntry org inc action cids ex).action = action := rfl

theorem createMergedEntry_reserve (org : OrganicRow) (inc : Option IncRow)
    (action : String) (cids : List String) (ex : String) :
    (createMergedEntry org inc action cids ex).reserve_address = pyLower org.reserve := rfl

theorem createMergedEntry_vbr (org : OrganicRow) (inc : Option IncRow)
    (action : String) (cids : List String) (ex : String) :
    (createMergedEntry org inc action cids ex).variable_borrow_rate =
      org.variable_borrow_rate := rfl

theorem createMergedEntry_organic_borrow (org : OrganicRow) (inc : Option IncRow)
    (cids : List String) (ex : String) :
    (createMergedEntry org inc "BORROW" cids ex).organic_apr =
      -(org.variable_borrow_rate * 100) := by
  simp [createMergedEntry]

theorem pyLower_total_apr_lit : pyLower "total_apr" = "total_apr" := by decide

theorem organicOnlyExplorer_error_iff (inc : IncentivizedData) (org : OrganicRow) :
    (∃ e, organicOnlyExplorer inc (pyLower org.reserve) = Except.error e) ↔
      pyLower org.reserve = "total_apr" := by
  unfold organicOnlyExplorer
  rw [pyLower_total_apr_lit, pyLower_idem]
  by_cases h : "total_apr" = pyLower org.reserve
  · rw [if_pos h]
    constructor
    · intro _; exact h.symm
    · intro _; exact ⟨(), rfl⟩
  · have h2 : pyLower org.reserve ≠ "total_apr" := fun hc => h hc.symm
    simp only [h, if_false, h2, iff_false]
    split <;> rintro ⟨e, he⟩ <;> exact Except.noConfusion he

theorem organicOnlyExplorer_ok_lowered (inc : IncentivizedData) (ra ex : String)
    (h : organicOnlyExplorer inc ra = Except.ok ex) : pyLower ex = ex := by
  unfold organicOnlyExplorer at h
  by_cases h1 : pyLower "total_apr" = pyLower ra
  · rw [if_pos h1] at h
    exact Except.noConfusion h
  · rw [if_neg h1] at h
    by_cases h2 : pyLower "breakdown" = pyLower ra
    · rw [if_pos h2] at h
      have hv := Except.ok.inj h
      cases hf : inc.breakdown.find? (fun c => !(c.explorer_address == "")) with
      | none =>
        rw [hf] at hv
        simp only [] at hv
        rw [← hv]
        rfl
      | some c =>
        rw [hf] at hv
        simp only [] at hv
        rw [← hv, pyLower_idem]
    · rw [if_neg h2] at h
      have hv := Except.ok.inj h
      rw [← hv]
      rfl

theorem rowEntries_mem_shape (inc : IncentivizedData) (cids : List String)
    (org : OrganicRow) (es : List MergedEntry) (e : MergedEntry)
    (h : rowEntries inc cids org = Except.ok es) (he : e ∈ es) :
    (∃ ex, organicOnlyExplorer inc (pyLower org.reserve) = Except.ok ex ∧
        (e = createMergedEntry org none "LEND" cids ex ∨
          e = createMergedEntry org none "BORROW" cids ex)) ∨
      (∃ i ∈ inc.breakdown, e = createMergedEntry org (some i) i.action cids "") := by
  unfold rowEntries at h
  by_cases h0 : pyLower org.reserve = ""
  · rw [if_pos h0] at h
    have : es = [] := (Except.ok.inj h).symm
    subst this
    cases he
  · rw [if_neg h0] at h
    by_cases hm :
        (inc.breakdown.filter (fun i => pyLower i.reserve_address == pyLower org.reserve)).isEmpty
    · rw [if_pos hm] at h
      cases hx : organicOnlyExplorer inc (pyLower org.reserve) with
      | error e2 => rw [hx] at h; exact Except.noConfusion h
      | ok ex =>
        rw [hx] at h
        have hes := (Except.ok.inj h).symm
        subst hes
        left
        refine ⟨ex, rfl, ?_⟩
        rcases List.mem_cons.mp he with h1 | he2
        · exact Or.inl h1
        · rcases List.mem_cons.mp he2 with h1 | he3
          · exact Or.inr h1
          · cases he3
    · rw [if_neg hm] at h
      have hes := (Except.ok.inj h).symm
      subst hes
      right
      rcases List.mem_map.mp he with ⟨i, hi, hie⟩
      exact ⟨i, List.mem_of_mem_filter hi, hie.symm⟩

theorem rowEntries_mem_reserve (inc : IncentivizedData) (cids : List String)
    (org : OrganicRow) (es : List MergedEntry) (e : MergedEntry)
    (h : rowEntries inc cids org = Except.ok es) (he : e ∈ es) :
    e.reserve_address = pyLower org.reserve := by
  rcases rowEntries_mem_shape inc cids org es e h he with ⟨ex, _, hsh | hsh⟩ | ⟨i, _, hsh⟩ <;>
    rw [hsh, createMergedEntry_reserve]

theorem rowsEntries_mem (inc : IncentivizedData) (cids : List String) :
    ∀ (rows : List OrganicRow) (ls : List MergedEntry) (e : MergedEntry),
      rowsEntries inc cids rows = Except.ok ls → e ∈ ls →
        ∃ org ∈ rows, ∃ es, rowEntries inc cids org = Except.ok es ∧ e ∈ es := by
  intro rows
  induction rows with
  | nil =>
    intro ls e h he
    have : ls = [] := (Except.ok.inj h).symm
    subst this
    cases he
  | cons org rest ih =>
    intro ls e h he
    unfold rowsEntries at h
    cases hr : rowEntries inc cids org with
    | error e2 => rw [hr] at h; exact Except.noConfusion h
    | ok es =>
      rw [hr] at h
      cases hrs : rowsEntries inc cids rest with
      | error e2 => rw [hrs] at h; exact Except.noConfusion h
      | ok ls2 =>
        rw [hrs] at h
        have : ls = es ++ ls2 := (Except.ok.inj h).symm
        subst this
        rcases List.mem_append.mp he with he1 | he2
        · exact ⟨org, List.mem_cons_self .., es, hr, he1⟩
        · rcases ih ls2 e hrs he2 with ⟨org2, ho2, es2, hr2, he3⟩
          exact ⟨org2, List.mem_cons_of_mem _ ho2, es2, hr2, he3⟩

theorem rowEntries_ok_of_ne (inc : IncentivizedData) (cids : List String)
    (org : OrganicRow) (h : pyLower org.reserve ≠ "total_apr") :
    ∃ es, rowEntries inc cids org = Except.ok es := by
  unfold rowEntries
  by_cases h0 : pyLower org.reserve = ""
  · exact ⟨[], by rw [if_pos h0]⟩
  · rw [if_neg h0]
    by_cases hm :
        (inc.breakdown.filter (fun i => pyLower i.reserve_address == pyLower org.reserve)).isEmpty
    · rw [if_pos hm]
      cases hx : organicOnlyExplorer inc (pyLower org.reserve) with
      | error e2 =>
        exact absurd ((organicOnlyExplorer_error_iff inc org).mp ⟨e2, hx⟩) h
      | ok ex => exact ⟨_, rfl⟩
    · rw [if_neg hm]
      exact ⟨_, rfl⟩

theorem rowsEntries_ok_of_ne (inc : IncentivizedData) (cids : List String) :
    ∀ (rows : List OrganicRow),
      (∀ r2 ∈ rows, pyLower r2.reserve ≠ "total_apr") →
        ∃ ls, rowsEntries inc cids rows = Except.ok ls := by
  intro rows
  induction rows with
  | nil => intro _; exact ⟨[], rfl⟩
  | cons org rest ih =>
    intro hall
    rcases rowEntries_ok_of_ne inc cids org (hall org (List.mem_cons_self ..)) with ⟨es, hes⟩
    rcases ih (fun r2 h2 => hall r2 (List.mem_cons_of_mem _ h2)) with ⟨ls2, hls2⟩
    refine ⟨es ++ ls2, ?_⟩
    unfold rowsEntries
    rw [hes, hls2]

/-! ## Filtering merged entries by reserve -/

theorem rowEntries_filter_ne (inc : IncentivizedData) (cids : List String)
    (org : OrganicRow) (es : List MergedEntry) (ra : String)
    (h : rowEntries inc cids org = Except.ok es) (hne : pyLower org.reserve ≠ ra) :
    es.filter (fun e => e.reserve_address == ra) = [] := by
  refine List.filter_eq_nil_iff.mpr (fun e he => ?_)
  rw [rowEntries_mem_reserve inc cids org es e h he]
  simp [hne]

theorem rowEntries_filter_self (inc : IncentivizedData) (cids : List String)
    (org : OrganicRow) (es : List MergedEntry) (ra : String)
    (h : rowEntries inc cids org = Except.ok es) (heq : pyLower org.reserve = ra) :
    es.filter (fun e => e.reserve_address == ra) = es := by
  refine List.filter_eq_self.mpr (fun e he => ?_)
  rw [rowEntries_mem_reserve inc cids org es e h he, heq]
  simp

theorem rowsEntries_filter_nil (inc : IncentivizedData) (cids : List String) (ra : String) :
    ∀ (rows : List OrganicRow) (ls : List MergedEntry),
      rowsEntries inc cids rows = Except.ok ls →
      (∀ r2 ∈ rows, pyLower r2.reserve ≠ ra) →
      ls.filter (fun e => e.reserve_address == ra) = [] := by
  intro rows
  induction rows with
  | nil =>
    intro ls h _
    have : ls = [] := (Except.ok.inj h).symm
    subst this
    rfl
  | cons org rest ih =>
    intro ls h hall
    unfold rowsEntries at h
    cases hr : rowEntries inc cids org with
    | error e2 => rw [hr] at h; exact Except.noConfusion h
    | ok es =>
      rw [hr] at h
      cases hrs : rowsEntries inc cids rest with
      | error e2 => rw [hrs] at h; exact Except.noConfusion h
      | ok ls2 =>
        rw [hrs] at h
        have : ls = es ++ ls2 := (Except.ok.inj h).symm
        subst this
        rw [List.filter_append,
          rowEntries_filter_ne inc cids org es ra hr (hall org (List.mem_cons_self ..)),
          ih ls2 hrs (fun r2 h2 => hall r2 (List.mem_cons_of_mem _ h2))]
        rfl

theorem rowsEntries_filter_unique (inc : IncentivizedData) (cids : List String)
    (ra : String) (r : OrganicRow) :
    ∀ (rows : List OrganicRow) (ls : List MergedEntry),
      rowsEntries inc cids rows = Except.ok ls →
      rows.filter (fun r2 => pyLower r2.reserve == ra) = [r] →
      ∃ esr, rowEntries inc cids r = Except.ok esr ∧
        ls.filter (fun e => e.reserve_address == ra) =
          esr.filter (fun e => e.reserve_address == ra) := by
  intro rows
  induction rows with
  | nil =>
    intro ls _ hu
    exact absurd hu (by simp)
  | cons org rest ih =>
    intro ls h hu
    unfold rowsEntries at h
    cases hr : rowEntries inc cids org with
    | error e2 => rw [hr] at h; exact Except.noConfusion h
    | ok es =>
      rw [hr] at h
      cases hrs : rowsEntries inc cids rest with
      | error e2 => rw [hrs] at h; exact Except.noConfusion h
      | ok ls2 =>
        rw [hrs] at h
        have hls : ls = es ++ ls2 := (Except.ok.inj h).symm
        subst hls
        rw [List.filter_append]
        by_cases hc : pyLower org.reserve = ra
        · rw [List.filter_cons_of_pos (by simp [hc])] at hu
          have horg : org = r := by
            have := congrArg (fun l => List.headD l org) hu
            simpa using this
          have htl : rest.filter (fun r2 => pyLower r2.reserve == ra) = [] := by
            have := congrArg List.tail hu
            simpa using this
          have hall : ∀ r2 ∈ rest, pyLower r2.reserve ≠ ra := by
            intro r2 h2 hcon
            have : r2 ∈ rest.filter (fun r2 => pyLower r2.reserve == ra) :=
              List.mem_filter.mpr ⟨h2, by simp [hcon]⟩
            rw [htl] at this
            cases this
          rw [rowsEntries_filter_nil inc cids ra rest ls2 hrs hall, List.append_nil]
          subst horg
          exact ⟨es, hr, rfl⟩
        · rw [List.filter_cons_of_neg (by simp [hc])] at hu
          rcases ih ls2 hrs hu with ⟨esr, hesr, hfe⟩
          rw [rowEntries_filter_ne inc cids org es ra hr hc, List.nil_append]
          exact ⟨esr, hesr, hfe⟩

/-! ## Branch computations of one organic row -/

theorem rowEntries_no_match (inc : IncentivizedData) (cids : List String)
    (org : OrganicRow) (hne : pyLower org.reserve ≠ "")
    (hta : pyLower org.reserve ≠ "total_apr")
    (hno : ∀ i ∈ inc.breakdown, pyLower i.reserve_address ≠ pyLower org.reserve) :
    ∃ ex, organicOnlyExplorer inc (pyLower org.reserve) = Except.ok ex ∧
      rowEntries inc cids org =
        Except.ok
          [createMergedEntry org none "LEND" cids ex,
            createMergedEntry org none "BORROW" cids ex] := by
  have hm :
      (inc.breakdown.filter (fun i => pyLower i.reserve_address == pyLower org.reserve)).isEmpty := by
    rw [List.isEmpty_iff, List.filter_eq_nil_iff]
    intro i hi
    simp [hno i hi]
  cases hx : organicOnlyExplorer inc (pyLower org.reserve) with
  | error e2 =>
    exact absurd ((organicOnlyExplorer_error_iff inc org).mp ⟨e2, hx⟩) hta
  | ok ex =>
    refine ⟨ex, rfl, ?_⟩
    unfold rowEntries
    rw [if_neg hne, if_pos hm, hx]

theorem rowEntries_with_match (inc : IncentivizedData) (cids : List String)
    (org : OrganicRow) (hne : pyLower org.reserve ≠ "")
    (hm :
      ¬(inc.breakdown.filter
        (fun i => pyLower i.reserve_address == pyLower org.reserve)).isEmpty) :
    rowEntries inc cids org =
      Except.ok
        ((inc.breakdown.filter (fun i => pyLower i.reserve_address == pyLower org.reserve)).map
          (fun i => createMergedEntry org (some i) i.action cids "")) := by
  unfold rowEntries
  rw [if_neg hne, if_neg hm]

/-! ## Organic breakdown membership -/

theorem getOrganicApr_mem (rows : List FootRow) (br : OrganicRow)
    (h : br ∈ (getOrganicApr rows).breakdown) :
    ∃ row ∈ rows, br = footRowOrganic row ∧ 0 < row.liquidity_rate.getD 0 * 100 := by
  unfold getOrganicApr at h
  simp only [] at h
  rcases List.mem_map.mp h with ⟨row, hrow, hbr⟩
  rcases List.mem_filter.mp hrow with ⟨hmem, hpos⟩
  exact ⟨row, hmem, hbr.symm, of_decide_eq_true hpos⟩

/-! ## Dict-value invariants (Tropykus) -/

theorem dictInsert_values_mem {α : Type} (d : List (String × α)) (k : String) (v w : α)
    (h : w ∈ (dictInsert d k v).map Prod.snd) : w = v ∨ w ∈ d.map Prod.snd := by
  unfold dictInsert at h
  by_cases ha : d.any (fun p => p.1 == k)
  · rw [if_pos ha, List.map_map] at h
    rcases List.mem_map.mp h with ⟨p, hp, hw⟩
    by_cases hk : p.1 == k
    · left
      simp only [Function.comp_apply, hk, if_pos] at hw
      exact hw.symm
    · right
      simp only [Function.comp_apply, hk] at hw
      simp only [Bool.false_eq_true, if_false] at hw
      exact hw ▸ List.mem_map.mpr ⟨p, hp, rfl⟩
  · rw [if_neg ha, List.map_append] at h
    rcases List.mem_append.mp h with h1 | h2
    · exact Or.inr h1
    · left
      simpa using h2

theorem tropykusAprBreakdowns_values {P : TropEntry → Prop} (markets : List TropMarket)
    (hP : ∀ m ∈ markets, P (tropykusLendEntry m) ∧ P (tropykusBorrowEntry m)) :
    ∀ t ∈ (tropykusAprBreakdowns markets).map Prod.snd, P t := by
  unfold tropykusAprBreakdowns
  suffices h :
      ∀ (ms : List TropMarket) (d : List (String × TropEntry)),
        (∀ m ∈ ms, P (tropykusLendEntry m) ∧ P (tropykusBorrowEntry m)) →
        (∀ t ∈ d.map Prod.snd, P t) →
        ∀ t ∈ (ms.foldl
            (fun d m =>
              dictInsert (dictInsert d (m.name ++ "_LEND") (tropykusLendEntry m))
                (m.name ++ "_BORROW") (tropykusBorrowEntry m)) d).map Prod.snd, P t by
    exact h markets [] hP (by intro t ht; cases ht)
  intro ms
  induction ms with
  | nil => intro d _ hd t ht; exact hd t ht
  | cons m rest ih =>
    intro d hms hd t ht
    refine ih _ (fun m2 h2 => hms m2 (List.mem_cons_of_mem _ h2)) ?_ t ht
    intro w hw
    rcases dictInsert_values_mem _ _ _ w hw with hw1 | hw2
    · exact hw1 ▸ (hms m (List.mem_cons_self ..)).2
    · rcases dictInsert_values_mem _ _ _ w hw2 with hw3 | hw4
      · exact hw3 ▸ (hms m (List.mem_cons_self ..)).1
      · exact hd w hw4

/-! ## Evidence gate lemmas -/

theorem loopAny_mem_true (f : JVal → Except Unit Bool) :
    ∀ (l : List JVal) (b : JVal), b ∈ l → f b = Except.ok true →
      loopAny f l = Except.ok true ∨ ∃ e, loopAny f l = Except.error e := by
  intro l
  induction l with
  | nil => intro b hb; cases hb
  | cons x rest ih =>
    intro b hb hfb
    rcases List.mem_cons.mp hb with rfl | hb2
    · left
      unfold loopAny
      rw [hfb]
    · unfold loopAny
      cases hfx : f x with
      | error e => exact Or.inr ⟨e, rfl⟩
      | ok v =>
        cases v with
        | true => exact Or.inl rfl
        | false => exact ih b hb2 hfb

theorem gather_evidence_lending_of_receipt (address : String) (balances : List JVal)
    (probe : Except Unit Bool) (b : JVal) (hb : b ∈ balances)
    (hr : looksLikeLendingReceipt b = Except.ok true) :
    (gather_evidence address balances probe).has_lending = true := by
  unfold gather_evidence gatherEvidenceBody
  cases hy : loopAny yieldTokenCheck balances with
  | error e => rfl
  | ok vy =>
    rcases loopAny_mem_true looksLikeLendingReceipt balances b hb hr with hl | ⟨e, hl⟩ <;>
      rw [hl]
    · cases hn : loopAny nftCheck balances <;> rfl
    · rfl

/-- The token-balance dictionary shape the lending-receipt heuristic reads:
a `token` sub-dictionary with `type`, `symbol` and `name` strings, and a
`value` field. -/
def mkTokenBalance (ty sym name : String) (value : JVal) : JVal :=
  JVal.obj
    [("token",
        JVal.obj [("type", JVal.str ty), ("symbol", JVal.str sym), ("name", JVal.str name)]),
      ("value", value)]

theorem pyOrStr_str_lower (s : String) :
    pyLowerVal (pyOrStr (JVal.str s) "") = Except.ok (pyLower s) := by
  by_cases h : s = ""
  · subst h; rfl
  · unfold pyOrStr pyTruthy
    simp [h, pyLowerVal]

theorem looksLikeLendingReceipt_mk (ty sym name : String) (value : JVal) :
    looksLikeLendingReceipt (mkTokenBalance ty sym name value) =
      Except.ok
        (if ty = "ERC-20" then
          isPositive value &&
            (lendingPatterns.any (fun p => pyStartsWith (pyLower sym) p) ||
              keywordHit (pyLower name))
        else false) := by
  by_cases h : ty = "ERC-20"
  · subst h
    simp [looksLikeLendingReceipt, mkTokenBalance, pyGetD, List.lookup, jvalEqStr,
      pyOrStr_str_lower]
  · simp [looksLikeLendingReceipt, mkTokenBalance, pyGetD, List.lookup, jvalEqStr,
      beq_iff_eq, h]

/-! ## Claim theorems -/

theorem createMergedEntry_invariant (org : OrganicRow) (inc : Option IncRow)
    (action : String) (cids : List String) (ex : String) :
    (createMergedEntry org inc action cids ex).total_apr =
        (createMergedEntry org inc action cids ex).organic_apr +
          (createMergedEntry org inc action cids ex).incentivized_apr ∧
      ((createMergedEntry org inc action cids ex).action = "BORROW" →
        0 < (createMergedEntry org inc action cids ex).variable_borrow_rate →
        (createMergedEntry org inc action cids ex).organic_apr ≤ 0) := by
  refine ⟨rfl, fun ha hv => ?_⟩
  rw [createMergedEntry_action] at ha
  subst ha
  rw [createMergedEntry_vbr] at hv
  rw [createMergedEntry_organic_borrow]
  nlinarith

/-- Claim C1: every merged position produced by the lending merge engine —
whether a LayerBank entry built by `_create_merged_entry` inside the merge,
or a Tropykus `get_apr_data` breakdown entry — has `total_apr` exactly equal
to `organic_apr + incentivized_apr`; and whenever such an entry has action
BORROW and its underlying variable borrow rate is strictly positive, its
`organic_apr` is nonpositive (the borrow rate is stored negated, as a cost
to the user). -/
theorem merge_total_apr_sum_and_borrow_sign :
    (∀ (organic : OrganicData) (inc : IncentivizedData) (cids : List String),
      ∀ e ∈ mergedEntries organic inc cids,
        e.total_apr = e.organic_apr + e.incentivized_apr ∧
          (e.action = "BORROW" → 0 < e.variable_borrow_rate → e.organic_apr ≤ 0)) ∧
    (∀ (allMarkets : List TropMarket) (active : Option (List String)),
      ∀ t ∈ (tropykusAprBreakdowns (tropykusFilterMarkets allMarkets active)).map Prod.snd,
        t.total_apr = t.organic_apr + t.incentivized_apr ∧
          (t.action = "BORROW" → 0 < t.borrow_rate → t.organic_apr ≤ 0)) := by
  constructor
  · intro organic inc cids e he
    rw [mergedEntries_eq] at he
    cases hr : rowsEntries inc cids organic.breakdown with
    | error e2 => rw [hr] at he; cases he
    | ok ls =>
      rw [hr] at he
      rcases rowsEntries_mem inc cids organic.breakdown ls e hr he with ⟨org, _, es, hes, hein⟩
      rcases rowEntries_mem_shape inc cids org es e hes hein with
        ⟨ex, _, hsh | hsh⟩ | ⟨i, _, hsh⟩ <;>
        · subst hsh
          exact createMergedEntry_invariant ..
  · intro allMarkets active
    refine tropykusAprBreakdowns_values (tropykusFilterMarkets allMarkets active)
      (fun m _ => ⟨⟨?_, ?_⟩, ⟨?_, ?_⟩⟩)
    · show m.supply_rate = m.supply_rate + 0
      ring
    · intro ha
      exact absurd ha (by simp [tropykusLendEntry])
    · show -m.borrow_rate = -m.borrow_rate + 0
      ring
    · intro _ hv
      show -m.borrow_rate ≤ 0
      have : (0:ℚ) < m.borrow_rate := hv
      linarith

/-- Concrete organic row for the C1 witness: 1 percent liquidity rate, 2
percent variable borrow rate. -/
def orgRowW1 : OrganicRow :=
  { reserve := "0xAb", liquidity_rate := mkRat 1 100, variable_borrow_rate := mkRat 2 100,
    organic_apr := 1, latest_update := "2024-01-01" }

/-- Concrete organic data for the C1 witness. -/
def organicW1 : OrganicData := { total_organic_apr := 1, breakdown := [orgRowW1] }

/-- Empty incentive data for the C1 witness. -/
def incEmptyW1 : IncentivizedData := { total_apr := 0, breakdown := [] }

/-- The BORROW entry the merge produces for `orgRowW1`. -/
def entryW1 : MergedEntry := createMergedEntry orgRowW1 none "BORROW" ["0xc1"] ""

theorem merge_total_apr_sum_and_borrow_sign_witness :
    entryW1.total_apr = entryW1.organic_apr + entryW1.incentivized_apr ∧
      entryW1.organic_apr ≤ 0 := by
  have hev :
      mergedEntries organicW1 incEmptyW1 ["0xc1"] =
        [createMergedEntry orgRowW1 none "LEND" ["0xc1"] "", entryW1] := rfl
  have hmem : entryW1 ∈ mergedEntries organicW1 incEmptyW1 ["0xc1"] := by
    rw [hev]
    exact List.mem_cons_of_mem _ (List.mem_cons_self ..)
  exact
    ⟨(merge_total_apr_sum_and_borrow_sign.1 organicW1 incEmptyW1 ["0xc1"] entryW1 hmem).1,
      (merge_total_apr_sum_and_borrow_sign.1 organicW1 incEmptyW1 ["0xc1"] entryW1 hmem).2
        rfl (by decide)⟩

/-- Claim C2: if the body of `gather_evidence` raises an exception at its top
level (outside the inner rewards-probe catch), `gather_evidence` returns all
four evidence flags true — never a partial or all-false set — and never
propagates the exception (the model is a total function). -/
theorem gather_evidence_fail_open (address : String) (balances : List JVal)
    (probe : Except Unit Bool) (err : Unit)
    (h : gatherEvidenceBody address balances probe = Except.error err) :
    gather_evidence address balances probe = allTrueEvidence := by
  unfold gather_evidence
  rw [h]

/-- A malformed balance list (a bare string instead of a dict) on which the
body of `gather_evidence` raises `AttributeError`. -/
def malformedBalancesW2 : List JVal := [JVal.str "not-a-dict"]

theorem gather_evidence_fail_open_witness :
    gatherEvidenceBody "0x1" malformedBalancesW2 (Except.ok false) = Except.error () ∧
      gather_evidence "0x1" malformedBalancesW2 (Except.ok false) = allTrueEvidence :=
  ⟨rfl, gather_evidence_fail_open "0x1" malformedBalancesW2 (Except.ok false) () rfl⟩

/-- Claim C3 counterexample: when an exception escapes to the top level of
`process_address`, the returned aggregate carries all-FALSE evidence flags,
not the all-true fallback of the evidence gate that the claim asserts. -/
theorem process_address_fallback_evidence_counterexample :
    (process_address "0x1" (Except.error ())).evidence ≠ allTrueEvidence := by decide

/-- Claim C3 amended: if any unexpected exception escapes to the top level of
`process_address`, the call returns the full zero-value aggregate shape
(empty NFT valuations, zero Merkle rewards, zero yield tokens, empty lending
portfolio shapes) paired with ALL-FALSE evidence flags (not the all-true
fallback of the evidence gate), and never propagates an exception to the
caller. -/
theorem process_address_top_level_fallback (address : String) (err : Unit) :
    process_address address (Except.error err) = fallbackAggregate address ∧
      (fallbackAggregate address).evidence =
        { has_yield_token := false, has_lending := false, has_nfts := false,
          has_merkle_rewards := false } ∧
      (fallbackAggregate address).nft_valuations = JVal.list [] ∧
      (fallbackAggregate address).merkle_rewards = emptyMerkleSummary ∧
      (fallbackAggregate address).yield_tokens = emptyYieldTokens ∧
      (fallbackAggregate address).lending_layerbank = emptyLayerBankLending ∧
      (fallbackAggregate address).lending_tropykus = emptyTropykusPortfolio :=
  ⟨rfl, rfl, rfl, rfl, rfl, rfl, rfl⟩

/-- A live incentive opportunity row used by the C4 theorems. -/
def incRowW4 : IncRow :=
  { campaign_id := "123", status := "LIVE", action := "LEND", apr := 5,
    explorer_address := "0xaa", price := 1, reserve_address := "0xbb" }

/-- A successful, non-empty incentive breakdown used by the C4 theorems. -/
def incDataW4 : IncentivizedData := { total_apr := 5, breakdown := [incRowW4] }

/-- Claim C4 counterexample: with the organic source failed (its empty
breakdown) and the incentive source succeeding with a non-empty breakdown,
the merge returns NO merged positions at all — in particular no entry with
organic_apr = 0 for the incentive-matched token. -/
theorem merge_organic_failure_counterexample :
    incDataW4.breakdown ≠ [] ∧
      mergedEntries { total_organic_apr := 0, breakdown := [] } incDataW4 ["0xc1"] = [] := by
  constructor
  · intro h
    exact List.noConfusion h
  · rfl

/-- Claim C4 amended: if the organic-rate source fails (returning its empty
breakdown) while the incentive source succeeds with a non-empty breakdown,
the merge still returns normally — empty campaign breakdowns rather than an
error for the whole call — but emits no MergedPosition entries at all:
incentive-only records are dropped because the merge iterates organic
reserves only. -/
theorem merge_organic_failure_returns_empty (organic : OrganicData)
    (inc : IncentivizedData) (cids : List String) (h : organic.breakdown = []) :
    mergeOrganicAndIncentivizedApr organic inc cids = [] ∧
      mergedEntries organic inc cids = [] := by
  constructor
  · unfold mergeOrganicAndIncentivizedApr
    rw [h]
    rfl
  · unfold mergedEntries mergeOrganicAndIncentivizedApr
    rw [h]
    rfl

theorem merge_organic_failure_returns_empty_witness :
    mergeOrganicAndIncentivizedApr { total_organic_apr := 0, breakdown := [] } incDataW4
        ["0xc1"] = [] ∧
      mergedEntries { total_organic_apr := 0, breakdown := [] } incDataW4 ["0xc1"] = [] :=
  merge_organic_failure_returns_empty { total_organic_apr := 0, breakdown := [] } incDataW4
    ["0xc1"] rfl

/-- Claim C7: `gather_evidence` sets `has_lending` true when some token
balance is an ERC-20 with strictly positive value whose lower-cased symbol
starts with one of the prefixes k, c, a, l, variable, or whose lower-cased
name contains one of the lending keywords (ktoken, ltoken, atoken,
layerbank, avalon, tropykus, variable, debt); in particular a kUSDT ERC-20
balance of value 100 yields true and a USDT ERC-20 balance of value 0 yields
false. -/
theorem gather_evidence_lending_heuristic :
    (∀ (address : String) (balances : List JVal) (probe : Except Unit Bool)
        (ty sym name : String) (value : JVal) (q : ℚ),
      mkTokenBalance ty sym name value ∈ balances →
      ty = "ERC-20" →
      pyFloatOfVal value = some q →
      0 < q →
      (lendingPatterns.any (fun p => pyStartsWith (pyLower sym) p) ||
          keywordHit (pyLower name)) = true →
      (gather_evidence address balances probe).has_lending = true) ∧
    (gather_evidence "0x1" [mkTokenBalance "ERC-20" "kUSDT" "" (JVal.str "100")]
        (Except.ok false)).has_lending = true ∧
    (gather_evidence "0x1" [mkTokenBalance "ERC-20" "USDT" "" (JVal.str "0")]
        (Except.ok false)).has_lending = false := by
  refine ⟨?_, rfl, rfl⟩
  intro address balances probe ty sym name value q hmem hty hq hpos hpat
  refine gather_evidence_lending_of_receipt address balances probe _ hmem ?_
  rw [looksLikeLendingReceipt_mk, if_pos hty]
  have hp : isPositive value = true := by
    unfold isPositive
    rw [hq]
    simp [hpos]
  rw [hp, hpat]
  rfl

theorem gather_evidence_lending_heuristic_witness :
    (gather_evidence "0x2"
        [mkTokenBalance "ERC-20" "kRBTC" "Tropykus kRBTC" (JVal.str "2.5")]
        (Except.ok false)).has_lending = true :=
  gather_evidence_lending_heuristic.1 "0x2"
    [mkTokenBalance "ERC-20" "kRBTC" "Tropykus kRBTC" (JVal.str "2.5")]
    (Except.ok false) "ERC-20" "kRBTC" "Tropykus kRBTC" (JVal.str "2.5") (mkRat 25 10)
    (List.mem_cons_self ..) rfl rfl (by decide) (by decide)

/-- Adapter-call outcomes with every call succeeding, used by the C8 witness. -/
def callsW8 : AdapterCalls :=
  { nft := Except.ok (JVal.num 1), merkle := Except.ok (JVal.num 2),
    yieldTok := Except.ok (JVal.num 3), lending := Except.ok (JVal.num 4),
    tropykus := Except.ok (JVal.num 5) }

/-- Claim C8: in `process_address`, a failure of one enabled adapter call does
not abort the sibling adapter calls: the aggregate built with that adapter
raising equals the aggregate built with that adapter succeeding, except that
the failing adapter's slot holds its documented empty-result shape. Stated
for each of the five adapter calls. -/
theorem process_address_adapter_isolation (address : String) (balances : List JVal)
    (probe : Except Unit Bool) (calls : AdapterCalls) (v : JVal) :
    ((gather_evidence address balances probe).has_nfts = true →
      processAddressBody address balances probe { calls with nft := Except.error () } =
        { processAddressBody address balances probe { calls with nft := Except.ok v } with
            nft_valuations := JVal.list [] }) ∧
    ((gather_evidence address balances probe).has_merkle_rewards = true →
      processAddressBody address balances probe { calls with merkle := Except.error () } =
        { processAddressBody address balances probe { calls with merkle := Except.ok v } with
            merkle_rewards := emptyMerkleSummary }) ∧
    ((gather_evidence address balances probe).has_yield_token = true →
      processAddressBody address balances probe { calls with yieldTok := Except.error () } =
        { processAddressBody address balances probe { calls with yieldTok := Except.ok v } with
            yield_tokens := emptyYieldTokens }) ∧
    ((gather_evidence address balances probe).has_lending = true →
      processAddressBody address balances probe { calls with lending := Except.error () } =
        { processAddressBody address balances probe { calls with lending := Except.ok v } with
            lending_layerbank := emptyLayerBankLending }) ∧
    ((gather_evidence address balances probe).has_lending = true →
      processAddressBody address balances probe { calls with tropykus := Except.error () } =
        { processAddressBody address balances probe { calls with tropykus := Except.ok v } with
            lending_tropykus := emptyTropykusPortfolio }) := by
  refine ⟨fun h => ?_, fun h => ?_, fun h => ?_, fun h => ?_, fun h => ?_⟩ <;>
    simp [processAddressBody, get_nft_data, get_merkle_data, get_yield_data,
      get_lending_data, get_tropykus_data, h]

theorem process_address_adapter_isolation_witness :
    processAddressBody "0x1" [JVal.str "x"] (Except.ok false)
        { callsW8 with merkle := Except.error () } =
      { processAddressBody "0x1" [JVal.str "x"] (Except.ok false)
          { callsW8 with merkle := Except.ok (JVal.num 9) } with
          merkle_rewards := emptyMerkleSummary } :=
  (process_address_adapter_isolation "0x1" [JVal.str "x"] (Except.ok false) callsW8
      (JVal.num 9)).2.1 rfl

/-- Claim C5: for a reserve present in the organic breakdown — appearing in
one row, as the rate source emits one row per reserve, with a nonempty
address (and not the literal incentive-dict key total_apr, which no address
is) — that has no incentive record matching its lowercased address, the
merge emits exactly two MergedPositions for that reserve, first LEND then
BORROW, each with incentivized_apr = 0 and total_apr equal to its
organic_apr. -/
theorem merge_no_incentive_two_entries (organic : OrganicData) (inc : IncentivizedData)
    (cids : List String) (r : OrganicRow) (ra : String)
    (hmem : organic.breakdown.filter (fun r2 => pyLower r2.reserve == ra) = [r])
    (hra : ra ≠ "")
    (hta : ∀ r2 ∈ organic.breakdown, pyLower r2.reserve ≠ "total_apr")
    (hno : ∀ i ∈ inc.breakdown, pyLower i.reserve_address ≠ ra) :
    ((mergedEntries organic inc cids).filter (fun e => e.reserve_address == ra)).map
        (fun e => (e.action, e.incentivized_apr, e.total_apr - e.organic_apr)) =
      [("LEND", (0 : ℚ), (0 : ℚ)), ("BORROW", (0 : ℚ), (0 : ℚ))] := by
  have hrin : r ∈ organic.breakdown ∧ pyLower r.reserve = ra := by
    have h1 : r ∈ organic.breakdown.filter (fun r2 => pyLower r2.reserve == ra) := by
      rw [hmem]
      exact List.mem_cons_self ..
    rcases List.mem_filter.mp h1 with ⟨h2, h3⟩
    exact ⟨h2, by simpa using h3⟩
  rcases rowsEntries_ok_of_ne inc cids organic.breakdown hta with ⟨ls, hls⟩
  rw [mergedEntries_eq, hls]
  rcases rowsEntries_filter_unique inc cids ra r organic.breakdown ls hls hmem with
    ⟨esr, hesr, hfe⟩
  rcases rowEntries_no_match inc cids r (by rw [hrin.2]; exact hra)
      (hta r hrin.1) (by rw [hrin.2]; exact hno) with ⟨ex, _, hre⟩
  have hesr2 : esr =
      [createMergedEntry r none "LEND" cids ex, createMergedEntry r none "BORROW" cids ex] :=
    Except.ok.inj (hesr.symm.trans hre)
  rw [hfe, rowEntries_filter_self inc cids r esr ra hesr hrin.2, hesr2]
  simp [createMergedEntry]

theorem merge_no_incentive_two_entries_witness :
    ((mergedEntries organicW1 incDataW4 ["0xc1"]).filter
        (fun e => e.reserve_address == "0xab")).map
        (fun e => (e.action, e.incentivized_apr, e.total_apr - e.organic_apr)) =
      [("LEND", (0 : ℚ), (0 : ℚ)), ("BORROW", (0 : ℚ), (0 : ℚ))] :=
  merge_no_incentive_two_entries organicW1 incDataW4 ["0xc1"] orgRowW1 "0xab"
    rfl (by decide) (by decide) (by decide)

/-- Claim C9: if the incentive breakdown holds several opportunities whose
reserve address matches one organic reserve (case-insensitively), the merge
processes each independently and emits one MergedPosition per opportunity,
with no deduplication — the merged entries for that reserve are exactly the
matching opportunities, in order, so the counts agree. Stated for a reserve
with one organic row (the rate source emits one row per reserve), nonempty
and not the literal incentive-dict key total_apr. -/
theorem merge_one_entry_per_opportunity (organic : OrganicData) (inc : IncentivizedData)
    (cids : List String) (r : OrganicRow) (ra : String)
    (hmem : organic.breakdown.filter (fun r2 => pyLower r2.reserve == ra) = [r])
    (hra : ra ≠ "")
    (hta : ∀ r2 ∈ organic.breakdown, pyLower r2.reserve ≠ "total_apr")
    (hm : inc.breakdown.filter (fun i => pyLower i.reserve_address == ra) ≠ []) :
    (mergedEntries organic inc cids).filter (fun e => e.reserve_address == ra) =
        (inc.breakdown.filter (fun i => pyLower i.reserve_address == ra)).map
          (fun i => createMergedEntry r (some i) i.action cids "") ∧
      ((mergedEntries organic inc cids).filter
          (fun e => e.reserve_address == ra)).length =
        (inc.breakdown.filter (fun i => pyLower i.reserve_address == ra)).length := by
  have hrin : r ∈ organic.breakdown ∧ pyLower r.reserve = ra := by
    have h1 : r ∈ organic.breakdown.filter (fun r2 => pyLower r2.reserve == ra) := by
      rw [hmem]
      exact List.mem_cons_self ..
    rcases List.mem_filter.mp h1 with ⟨h2, h3⟩
    exact ⟨h2, by simpa using h3⟩
  rcases rowsEntries_ok_of_ne inc cids organic.breakdown hta with ⟨ls, hls⟩
  have hmain :
      (mergedEntries organic inc cids).filter (fun e => e.reserve_address == ra) =
        (inc.breakdown.filter (fun i => pyLower i.reserve_address == ra)).map
          (fun i => createMergedEntry r (some i) i.action cids "") := by
    rw [mergedEntries_eq, hls]
    rcases rowsEntries_filter_unique inc cids ra r organic.breakdown ls hls hmem with
      ⟨esr, hesr, hfe⟩
    have hm2 :
        ¬(inc.breakdown.filter
          (fun i => pyLower i.reserve_address == pyLower r.reserve)).isEmpty := by
      rw [hrin.2]
      intro hc
      exact hm (List.isEmpty_iff.mp hc)
    have hre := rowEntries_with_match inc cids r (by rw [hrin.2]; exact hra) hm2
    have hesr2 :
        esr =
          (inc.breakdown.filter
            (fun i => pyLower i.reserve_address == pyLower r.reserve)).map
            (fun i => createMergedEntry r (some i) i.action cids "") :=
      Except.ok.inj (hesr.symm.trans hre)
    rw [hfe, rowEntries_filter_self inc cids r esr ra hesr hrin.2, hesr2, hrin.2]
  exact ⟨hmain, by rw [hmain, List.length_map]⟩

/-- First of two opportunities on the same reserve and action (C9 witness). -/
def incRowW9a : IncRow :=
  { campaign_id := "11", status := "LIVE", action := "LEND", apr := 2,
    explorer_address := "0xe1", price := 1, reserve_address := "0xAB" }

/-- Second of two opportunities on the same reserve and action (C9 witness). -/
def incRowW9b : IncRow :=
  { campaign_id := "12", status := "LIVE", action := "LEND", apr := 3,
    explorer_address := "0xe2", price := 1, reserve_address := "0xab" }

/-- Incentive data with two opportunities for the same reserve and action. -/
def incDataW9 : IncentivizedData := { total_apr := 5, breakdown := [incRowW9a, incRowW9b] }

theorem merge_one_entry_per_opportunity_witness :
    (mergedEntries organicW1 incDataW9 ["0xc1"]).filter
          (fun e => e.reserve_address == "0xab") =
        (incDataW9.breakdown.filter
          (fun i => pyLower i.reserve_address == "0xab")).map
          (fun i => createMergedEntry orgRowW1 (some i) i.action ["0xc1"] "") ∧
      ((mergedEntries organicW1 incDataW9 ["0xc1"]).filter
          (fun e => e.reserve_address == "0xab")).length =
        (incDataW9.breakdown.filter
          (fun i => pyLower i.reserve_address == "0xab")).length :=
  merge_one_entry_per_opportunity organicW1 incDataW9 ["0xc1"] orgRowW1 "0xab"
    rfl (by decide) (by decide) (by decide)

/-- Claim C10 (implicit): the LayerBank organic fetch keeps a reserve row in
its breakdown only when its liquidity rate times 100 is strictly positive
(and stores exactly that product as the row's organic_apr); consequently,
for a reserve all of whose rows have nonpositive liquidity rate, the merge
emits no MergedPosition at all for that reserve — neither LEND nor BORROW —
even when the reserve has a positive variable borrow rate or matching
incentive opportunities. -/
theorem organic_positive_rate_gate :
    (∀ (rows : List FootRow), ∀ br ∈ (getOrganicApr rows).breakdown,
      0 < br.liquidity_rate * 100 ∧ br.organic_apr = br.liquidity_rate * 100) ∧
    (∀ (rows : List FootRow) (inc : IncentivizedData) (cids : List String) (ra : String),
      (∀ row ∈ rows, pyLower row.reserve = ra → row.liquidity_rate.getD 0 * 100 ≤ 0) →
      ∀ e ∈ mergedEntries (getOrganicApr rows) inc cids, e.reserve_address ≠ ra) := by
  constructor
  · intro rows br hbr
    rcases getOrganicApr_mem rows br hbr with ⟨row, _, hbr2, hpos⟩
    subst hbr2
    exact ⟨hpos, rfl⟩
  · intro rows inc cids ra hle e he
    rw [mergedEntries_eq] at he
    cases hr : rowsEntries inc cids (getOrganicApr rows).breakdown with
    | error e2 => rw [hr] at he; cases he
    | ok ls =>
      rw [hr] at he
      rcases rowsEntries_mem inc cids (getOrganicApr rows).breakdown ls e hr he with
        ⟨org, horg, es, hes, hein⟩
      rcases getOrganicApr_mem rows org horg with ⟨row, hrow, horg2, hpos⟩
      intro hcon
      have hres : pyLower org.reserve = ra := by
        rw [← rowEntries_mem_reserve inc cids org es e hes hein, hcon]
      have hres2 : pyLower row.reserve = ra := by
        rw [← hres, horg2]
        rfl
      have h9 := hle row hrow hres2
      linarith

/-- A Footprint row with positive liquidity rate (C10 witness). -/
def footRowW10a : FootRow :=
  { latest_update := "2024-01-01", reserve := "0xAa",
    liquidity_rate := some (mkRat 1 100), variable_borrow_rate := some (mkRat 2 100) }

/-- A Footprint row with zero liquidity rate and positive borrow rate
(C10 witness): it is dropped by the organic fetch. -/
def footRowW10b : FootRow :=
  { latest_update := "2024-01-01", reserve := "0xBb",
    liquidity_rate := some 0, variable_borrow_rate := some (mkRat 3 100) }

/-- The Footprint rows of the C10 witness. -/
def footRowsW10 : List FootRow := [footRowW10a, footRowW10b]

/-- The LEND entry the merge produces for the kept row of the C10 witness. -/
def entryW10 : MergedEntry :=
  createMergedEntry (footRowOrganic footRowW10a) none "LEND" ["0xc1"] ""

theorem organic_positive_rate_gate_witness :
    entryW10.reserve_address ≠ "0xbb" := by
  have hev :
      mergedEntries (getOrganicApr footRowsW10) incEmptyW1 ["0xc1"] =
        [entryW10,
          createMergedEntry (footRowOrganic footRowW10a) none "BORROW" ["0xc1"] ""] := by
    with_unfolding_all rfl
  have hmem : entryW10 ∈ mergedEntries (getOrganicApr footRowsW10) incEmptyW1 ["0xc1"] := by
    rw [hev]
    exact List.mem_cons_self ..
  refine organic_positive_rate_gate.2 footRowsW10 incEmptyW1 ["0xc1"] "0xbb"
    ?_ entryW10 hmem
  intro row hrow hres
  rcases List.mem_cons.mp hrow with rfl | hrow2
  · exact absurd hres (by decide)
  · rcases List.mem_cons.mp hrow2 with rfl | hrow3
    · norm_num [footRowW10b]
    · cases hrow3

/-! ## Case-insensitivity of the merge -/

/-- Two organic rows equal up to the letter case of their reserve address. -/
def orgCaseEq (a b : OrganicRow) : Prop :=
  pyLower a.reserve = pyLower b.reserve ∧ a.liquidity_rate = b.liquidity_rate ∧
    a.variable_borrow_rate = b.variable_borrow_rate ∧ a.organic_apr = b.organic_apr ∧
    a.latest_update = b.latest_update

/-- Two incentive rows equal up to the letter case of their reserve and
explorer token addresses. -/
def incCaseEq (a b : IncRow) : Prop :=
  a.campaign_id = b.campaign_id ∧ a.status = b.status ∧ a.action = b.action ∧
    a.apr = b.apr ∧ pyLower a.explorer_address = pyLower b.explorer_address ∧
    a.price = b.price ∧ pyLower a.reserve_address = pyLower b.reserve_address

theorem createMergedEntry_caseEq_none (a b : OrganicRow) (ha : orgCaseEq a b)
    (action : String) (cids : List String) (ex : String) :
    createMergedEntry a none action cids ex = createMergedEntry b none action cids ex := by
  rcases ha with ⟨h1, h2, h3, h4, h5⟩
  simp only [createMergedEntry]
  rw [h1, h2, h3, h5]

theorem createMergedEntry_caseEq_some (a b : OrganicRow) (ha : orgCaseEq a b)
    (x y : IncRow) (hxy : incCaseEq x y) (cids : List String) :
    createMergedEntry a (some x) x.action cids "" =
      createMergedEntry b (some y) y.action cids "" := by
  rcases ha with ⟨h1, h2, h3, h4, h5⟩
  rcases hxy with ⟨g1, g2, g3, g4, g5, g6, g7⟩
  simp only [createMergedEntry]
  rw [h1, h2, h3, h5, g2, g3, g4, g5, g6]

theorem filter_incCaseEq (ra : String) :
    ∀ {l l2 : List IncRow}, List.Forall₂ incCaseEq l l2 →
      List.Forall₂ incCaseEq (l.filter (fun i => pyLower i.reserve_address == ra))
        (l2.filter (fun i => pyLower i.reserve_address == ra)) := by
  intro l l2 h
  induction h with
  | nil => exact List.Forall₂.nil
  | @cons a b l1 l3 hab hrest ih =>
    rw [List.filter_cons, List.filter_cons, hab.2.2.2.2.2.2]
    by_cases hc : (pyLower b.reserve_address == ra) = true
    · rw [if_pos hc, if_pos hc]
      exact List.Forall₂.cons hab ih
    · rw [if_neg hc, if_neg hc]
      exact ih

theorem explorerScan_caseEq :
    ∀ {l l2 : List IncRow}, List.Forall₂ incCaseEq l l2 →
      (match l.find? (fun c => !(c.explorer_address == "")) with
        | some c => pyLower c.explorer_address
        | none => "") =
      (match l2.find? (fun c => !(c.explorer_address == "")) with
        | some c => pyLower c.explorer_address
        | none => "") := by
  intro l l2 h
  induction h with
  | nil => rfl
  | @cons a b l1 l3 hab hrest ih =>
    have h5 := hab.2.2.2.2.1
    have hpred : (!(a.explorer_address == "")) = (!(b.explorer_address == "")) := by
      by_cases he : a.explorer_address = ""
      · have he2 : b.explorer_address = "" := by
          rw [← pyLower_eq_empty_iff, ← h5, he]
          rfl
        rw [he, he2]
      · have he2 : b.explorer_address ≠ "" := by
          intro hc
          rw [← pyLower_eq_empty_iff, h5, hc] at he
          exact he rfl
        simp [he, he2]
    cases hx : (!(a.explorer_address == "")) with
    | true =>
      have hy : (!(b.explorer_address == "")) = true := hpred ▸ hx
      simp only [List.find?, hx, hy]
      exact h5
    | false =>
      have hy : (!(b.explorer_address == "")) = false := hpred ▸ hx
      simp only [List.find?, hx, hy]
      exact ih

theorem organicOnlyExplorer_caseEq (i1 i2 : IncentivizedData)
    (h : List.Forall₂ incCaseEq i1.breakdown i2.breakdown) (ra : String) :
    organicOnlyExplorer i1 ra = organicOnlyExplorer i2 ra := by
  unfold organicOnlyExplorer
  by_cases h1 : pyLower "total_apr" = pyLower ra
  · rw [if_pos h1, if_pos h1]
  · rw [if_neg h1, if_neg h1]
    by_cases h2 : pyLower "breakdown" = pyLower ra
    · rw [if_pos h2, if_pos h2, explorerScan_caseEq h]
    · rw [if_neg h2, if_neg h2]

theorem map_createMergedEntry_caseEq (a b : OrganicRow) (hab : orgCaseEq a b)
    (cids : List String) :
    ∀ {l l2 : List IncRow}, List.Forall₂ incCaseEq l l2 →
      l.map (fun i => createMergedEntry a (some i) i.action cids "") =
        l2.map (fun i => createMergedEntry b (some i) i.action cids "") := by
  intro l l2 h
  induction h with
  | nil => rfl
  | @cons x y l1 l3 hxy hrest ih =>
    rw [List.map_cons, List.map_cons, ih,
      createMergedEntry_caseEq_some a b hab x y hxy cids]

theorem rowEntries_caseEq (i1 i2 : IncentivizedData)
    (hinc : List.Forall₂ incCaseEq i1.breakdown i2.breakdown)
    (cids : List String) (a b : OrganicRow) (hab : orgCaseEq a b) :
    rowEntries i1 cids a = rowEntries i2 cids b := by
  unfold rowEntries
  rw [hab.1]
  by_cases h0 : pyLower b.reserve = ""
  · rw [if_pos h0, if_pos h0]
  · rw [if_neg h0, if_neg h0]
    have hfil := filter_incCaseEq (pyLower b.reserve) hinc
    have hlen := List.Forall₂.length_eq hfil
    have hemp :
        (i1.breakdown.filter
            (fun i => pyLower i.reserve_address == pyLower b.reserve)).isEmpty =
          (i2.breakdown.filter
            (fun i => pyLower i.reserve_address == pyLower b.reserve)).isEmpty := by
      cases h1 : i1.breakdown.filter (fun i => pyLower i.reserve_address == pyLower b.reserve) with
      | nil =>
        cases h2 : i2.breakdown.filter
            (fun i => pyLower i.reserve_address == pyLower b.reserve) with
        | nil => rfl
        | cons y ys => rw [h1, h2] at hlen; simp at hlen
      | cons x xs =>
        cases h2 : i2.breakdown.filter
            (fun i => pyLower i.reserve_address == pyLower b.reserve) with
        | nil => rw [h1, h2] at hlen; simp at hlen
        | cons y ys => rfl
    by_cases hm :
        (i2.breakdown.filter
          (fun i => pyLower i.reserve_address == pyLower b.reserve)).isEmpty
    · rw [if_pos (hemp.trans (by rw [hm])), if_pos hm,
        organicOnlyExplorer_caseEq i1 i2 hinc (pyLower b.reserve)]
      cases organicOnlyExplorer i2 (pyLower b.reserve) with
      | error e => rfl
      | ok ex =>
        show Except.ok [createMergedEntry a none "LEND" cids ex,
            createMergedEntry a none "BORROW" cids ex] =
          Except.ok [createMergedEntry b none "LEND" cids ex,
            createMergedEntry b none "BORROW" cids ex]
        rw [createMergedEntry_caseEq_none a b hab "LEND" cids ex,
          createMergedEntry_caseEq_none a b hab "BORROW" cids ex]
    · rw [if_neg (fun hc => hm ((hemp.symm.trans (by rw [hc]) : _))), if_neg hm,
        map_createMergedEntry_caseEq a b hab cids hfil]

theorem rowsEntries_caseEq (i1 i2 : IncentivizedData)
    (hinc : List.Forall₂ incCaseEq i1.breakdown i2.breakdown) (cids : List String) :
    ∀ {rows1 rows2 : List OrganicRow}, List.Forall₂ orgCaseEq rows1 rows2 →
      rowsEntries i1 cids rows1 = rowsEntries i2 cids rows2 := by
  intro rows1 rows2 h
  induction h with
  | nil => rfl
  | @cons a b l1 l3 hab hrest ih =>
    unfold rowsEntries
    rw [rowEntries_caseEq i1 i2 hinc cids a b hab, ih]

theorem createMergedEntry_lowered (org : OrganicRow) (inc : Option IncRow)
    (action : String) (cids : List String) (ex : String) (hex : pyLower ex = ex) :
    pyLower (createMergedEntry org inc action cids ex).reserve_address =
        (createMergedEntry org inc action cids ex).reserve_address ∧
      pyLower (createMergedEntry org inc action cids ex).explorer_address =
        (createMergedEntry org inc action cids ex).explorer_address := by
  constructor
  · rw [createMergedEntry_reserve, pyLower_idem]
  · by_cases h : ex = ""
    · cases inc with
      | none => simp [createMergedEntry, h, pyLower_idem]
      | some i => simp [createMergedEntry, h, pyLower_idem]
    · simp [createMergedEntry, h, hex]

/-- Claim C6: the LayerBank merge matches organic and incentive records
case-insensitively on addresses — replacing the reserve and explorer/token
addresses in either input by case variants (equal after lower-casing, all
other fields unchanged) leaves the merged campaign breakdowns unchanged —
and every reserve or explorer address stored in a merged entry is lowercase
(a fixed point of lower-casing). -/
theorem merge_address_case_insensitive (o1 o2 : OrganicData) (i1 i2 : IncentivizedData)
    (cids : List String)
    (ho : List.Forall₂ orgCaseEq o1.breakdown o2.breakdown)
    (hi : List.Forall₂ incCaseEq i1.breakdown i2.breakdown) :
    mergeOrganicAndIncentivizedApr o1 i1 cids = mergeOrganicAndIncentivizedApr o2 i2 cids ∧
      ∀ e ∈ mergedEntries o1 i1 cids,
        pyLower e.reserve_address = e.reserve_address ∧
          pyLower e.explorer_address = e.explorer_address := by
  constructor
  · rw [mergeOrganicAndIncentivizedApr_eq, mergeOrganicAndIncentivizedApr_eq,
      rowsEntries_caseEq i1 i2 hi cids ho]
  · intro e he
    rw [mergedEntries_eq] at he
    cases hr : rowsEntries i1 cids o1.breakdown with
    | error e2 => rw [hr] at he; cases he
    | ok ls =>
      rw [hr] at he
      rcases rowsEntries_mem i1 cids o1.breakdown ls e hr he with ⟨org, _, es, hes, hein⟩
      rcases rowEntries_mem_shape i1 cids org es e hes hein with
        ⟨ex, hex, hsh | hsh⟩ | ⟨i, _, hsh⟩
      · subst hsh
        exact createMergedEntry_lowered org none "LEND" cids ex
          (organicOnlyExplorer_ok_lowered i1 (pyLower org.reserve) ex hex)
      · subst hsh
        exact createMergedEntry_lowered org none "BORROW" cids ex
          (organicOnlyExplorer_ok_lowered i1 (pyLower org.reserve) ex hex)
      · subst hsh
        exact createMergedEntry_lowered org (some i) i.action cids "" rfl

/-- Mixed-case organic row for the C6 witness. -/
def orgRowW6a : OrganicRow :=
  { reserve := "0xABCdef", liquidity_rate := mkRat 1 100,
    variable_borrow_rate := mkRat 2 100, organic_apr := 1, latest_update := "t" }

/-- Lower-case variant of `orgRowW6a`. -/
def orgRowW6b : OrganicRow :=
  { reserve := "0xabcdef", liquidity_rate := mkRat 1 100,
    variable_borrow_rate := mkRat 2 100, organic_apr := 1, latest_update := "t" }

/-- Organic data with the mixed-case reserve. -/
def orgDataW6a : OrganicData := { total_organic_apr := 1, breakdown := [orgRowW6a] }

/-- Organic data with the lower-case reserve. -/
def orgDataW6b : OrganicData := { total_organic_apr := 1, breakdown := [orgRowW6b] }

/-- Mixed-case incentive row for the C6 witness. -/
def incRowW6a : IncRow :=
  { campaign_id := "77", status := "LIVE", action := "LEND", apr := 4,
    explorer_address := "0xEE", price := 1, reserve_address := "0xABCDEF" }

/-- Lower-case variant of `incRowW6a`. -/
def incRowW6b : IncRow :=
  { campaign_id := "77", status := "LIVE", action := "LEND", apr := 4,
    explorer_address := "0xee", price := 1, reserve_address := "0xabcdef" }

/-- Incentive data with the mixed-case addresses. -/
def incDataW6a : IncentivizedData := { total_apr := 4, breakdown := [incRowW6a] }

/-- Incentive data with the lower-case addresses. -/
def incDataW6b : IncentivizedData := { total_apr := 4, breakdown := [incRowW6b] }

/-- The merged entry produced from the mixed-case C6 inputs. -/
def entryW6 : MergedEntry :=
  createMergedEntry orgRowW6a (some incRowW6a) incRowW6a.action ["0xc1"] ""

theorem merge_address_case_insensitive_witness :
    mergeOrganicAndIncentivizedApr orgDataW6a incDataW6a ["0xc1"] =
        mergeOrganicAndIncentivizedApr orgDataW6b incDataW6b ["0xc1"] ∧
      pyLower entryW6.reserve_address = entryW6.reserve_address ∧
        pyLower entryW6.explorer_address = entryW6.explorer_address := by
  have h := merge_address_case_insensitive orgDataW6a orgDataW6b incDataW6a incDataW6b
    ["0xc1"]
    (List.Forall₂.cons ⟨by decide, rfl, rfl, rfl, rfl⟩ List.Forall₂.nil)
    (List.Forall₂.cons ⟨rfl, rfl, rfl, rfl, by decide, rfl, by decide⟩ List.Forall₂.nil)
  have hev : mergedEntries orgDataW6a incDataW6a ["0xc1"] = [entryW6] := by
    with_unfolding_all rfl
  refine ⟨h.1, h.2 entryW6 ?_⟩
  rw [hev]
  exact List.mem_cons_self ..
